import Mathlib

/-!
Verification of the Ember "Spark" messaging layer's request-tracking
service (`src/libs/spark/src/TrackingService.cpp`) and of the login
server's realm-status handler (`src/login/RealmService.cpp`).

The C++ code is embedded shallowly: the correlation table
(`std::unordered_map<uuid, std::unique_ptr<Request>>`) becomes an
association list keyed by token; each pending `Request` owns a boost
deadline timer, modelled by an explicit phase (`armed`, `expired`,
`cancelled`) together with a queue of pending timer-completion-handler
invocations (boost.asio posts each `async_wait` handler exactly once,
with `operation_aborted` when the timer was cancelled or destroyed
before expiry, and with success when it had already expired — a cancel
that arrives after expiry does not stop the queued handler).  Callback
closures are identified by a numeric id and invocations are recorded in
a log, so "the callback fired n times" is a statement about the log.
-/

namespace Ember

namespace Spark

/-- A spark `Link` (peer connection); compared by its uuid, as
`TrackingService::on_message` compares `link != handler->link`. -/
structure Link where
  uuid : Nat
deriving DecidableEq, Repr

/-- A spark `Message`; only the correlation token (`message.token.uuid`)
is consulted by the tracking service. -/
structure Message where
  token : Nat
deriving DecidableEq, Repr

/-- Phase of a pending request's deadline timer. `armed`: `async_wait`
outstanding, neither expired nor cancelled. `expired`: the deadline
passed and the completion handler was posted with success. `cancelled`:
the timer was cancelled (by `shutdown` or by destruction of the
`Request`) before expiry and the handler was posted with
`operation_aborted`. -/
inductive TimerPhase
  | armed
  | expired
  | cancelled
deriving DecidableEq, Repr

/-- A pending `Request` record: the originating link, the registered
callback (identified by a numeric id), and its timer's phase. -/
structure Request where
  link : Link
  handlerId : Nat
  phase : TimerPhase
deriving DecidableEq, Repr

/-- One recorded callback invocation: which callback fired, with which
link argument, and with `some message` (response) or `none` (the
timeout marker `boost::none`). -/
structure Call where
  handlerId : Nat
  link : Link
  payload : Option Message
deriving DecidableEq, Repr

/-- A posted (not yet executed) timer-completion-handler invocation of
`TrackingService::timeout`: the bound token and link, and whether the
error code is `operation_aborted` (`aborted = true`) or success. -/
structure QueuedTimeout where
  token : Nat
  link : Link
  aborted : Bool
deriving DecidableEq, Repr

/-- State of a `TrackingService`: the correlation table `handlers_`,
the posted-but-not-yet-run timer handlers, and the log of callback
invocations performed so far. -/
structure TSState where
  handlers : List (Nat × Request)
  queued : List QueuedTimeout
  calls : List Call
deriving DecidableEq, Repr

/-- `handlers_.at(id)` / `handlers_.find(id)`: look a token up in the
correlation table. -/
def lookupHandler (tok : Nat) : List (Nat × Request) → Option Request
  | [] => none
  | p :: hs => if p.1 = tok then some p.2 else lookupHandler tok hs

/-- `handlers_.erase(id)`: remove a token's entry from the correlation
table (`std::unordered_map` keys are unique, so removing every entry
with the key coincides with erasing the one entry). -/
def eraseHandler (tok : Nat) : List (Nat × Request) → List (Nat × Request)
  | [] => []
  | p :: hs => if p.1 = tok then eraseHandler tok hs else p :: eraseHandler tok hs

/-- Destroying a `Request` destroys its deadline timer; if its
`async_wait` was still outstanding (`armed`), boost posts the handler
with `operation_aborted`. A handler already posted (`expired` or
`cancelled`) is unaffected. -/
def destroyQueue (tok : Nat) (r : Request) (q : List QueuedTimeout) : List QueuedTimeout :=
  if r.phase = TimerPhase.armed then q ++ [⟨tok, r.link, true⟩] else q

namespace TrackingService

/-- Body of `TrackingService::on_message` before its catch clause:
`handlers_.at` throws (`Except.error`) when the token is unknown;
otherwise the record is removed first, and the callback is invoked only
when the response arrived on the record's originating link. -/
def on_message_body (link : Link) (message : Message) (s : TSState) : Except Unit TSState :=
  match lookupHandler message.token s.handlers with
  | none => Except.error ()
  | some r =>
    let s1 : TSState :=
      { handlers := eraseHandler message.token s.handlers
        queued := destroyQueue message.token r s.queued
        calls := s.calls }
    if link ≠ r.link then
      Except.ok s1
    else
      Except.ok { s1 with calls := s1.calls ++ [⟨r.handlerId, link, some message⟩] }

/-- `TrackingService::on_message`: the function-try-block catches
`std::out_of_range` (unknown or expired token), logs and returns
normally with the state untouched. -/
def on_message (link : Link) (message : Message) (s : TSState) : TSState :=
  match on_message_body link message s with
  | Except.ok s1 => s1
  | Except.error _ => s

/-- `TrackingService::register_tracked`: builds a fresh `Request` with
an armed timer and stores it with `handlers_[id] = std::move(request)`;
`operator[]` move-assignment destroys any previous record under the
same token (destroying its timer). -/
def register_tracked (link : Link) (id : Nat) (handlerId : Nat) (s : TSState) : TSState :=
  let q :=
    match lookupHandler id s.handlers with
    | some old => destroyQueue id old s.queued
    | none => s.queued
  { handlers := eraseHandler id s.handlers ++ [(id, ⟨link, handlerId, TimerPhase.armed⟩)]
    queued := q
    calls := s.calls }

/-- Effect of `TrackingService::timeout(id, link, ec)` on the state: on
a cancelled timer (`ec` set) it returns at once; otherwise it removes
the record and invokes the callback with `boost::none`. When the token
is absent and `ec` is clear, `handlers_.at` throws before any mutation,
so the state is unchanged (the raised exception is captured separately
by `timeoutExc`). -/
def timeoutRun (id : Nat) (link : Link) (ec : Bool) (s : TSState) : TSState :=
  if ec then s
  else
    match lookupHandler id s.handlers with
    | none => s
    | some r =>
      { handlers := eraseHandler id s.handlers
        queued := destroyQueue id r s.queued
        calls := s.calls ++ [⟨r.handlerId, link, none⟩] }

/-- `TrackingService::timeout` with its exception behaviour: unlike
`on_message`, it has no try/catch, so `handlers_.at(id)` on an absent
token propagates `std::out_of_range` (`Except.error`) to the caller
(the asio handler invocation). -/
def timeoutExc (id : Nat) (link : Link) (ec : Bool) (s : TSState) : Except Unit TSState :=
  if ec then Except.ok s
  else
    match lookupHandler id s.handlers with
    | none => Except.error ()
    | some _ => Except.ok (timeoutRun id link ec s)

/-- `timer.cancel()` on one record: an armed timer becomes cancelled
(its handler is posted with `operation_aborted`); a timer already
expired or cancelled is unaffected. -/
def cancelTimer (r : Request) : Request :=
  if r.phase = TimerPhase.armed then { r with phase := TimerPhase.cancelled } else r

/-- `TrackingService::shutdown`: walks the correlation table and
cancels every record's timer. Records are not removed and no callback
is invoked; each armed timer's handler is posted with
`operation_aborted`. -/
def shutdown (s : TSState) : TSState :=
  { handlers := s.handlers.map (fun p => (p.1, cancelTimer p.2))
    queued := s.queued ++
      (s.handlers.filter (fun p => p.2.phase = TimerPhase.armed)).map
        (fun p => ⟨p.1, p.2.link, true⟩)
    calls := s.calls }

/-- The deadline of an armed timer passes: boost posts the bound
completion handler (`timeout(id, link, ec)` with success) and the timer
can no longer be cancelled. -/
def expireTimer (tok : Nat) (s : TSState) : TSState :=
  match lookupHandler tok s.handlers with
  | some r =>
    if r.phase = TimerPhase.armed then
      { s with
        handlers := s.handlers.map
          (fun p => (p.1, if p.1 = tok then { p.2 with phase := TimerPhase.expired } else p.2))
        queued := s.queued ++ [⟨tok, r.link, false⟩] }
    else s
  | none => s

/-- The asio io_service runs one posted timer handler (chosen by index):
the corresponding `TrackingService::timeout` invocation executes. -/
def deliver (i : Nat) (s : TSState) : TSState :=
  match s.queued[i]? with
  | none => s
  | some qt => timeoutRun qt.token qt.link qt.aborted { s with queued := s.queued.eraseIdx i }

/-- `TrackingService::on_link_up`: empty body ("we don't care about
this"). -/
def on_link_up (_link : Link) (s : TSState) : TSState := s

/-- `TrackingService::on_link_down`: empty body ("we don't care about
this"). -/
def on_link_down (_link : Link) (s : TSState) : TSState := s

/-- An event delivered to the tracking service by its environment: an
inbound message, a registration, a timer expiry, the io_service running
a posted timer handler, a shutdown, or a link lifecycle notification. -/
inductive Ev
  | msg (link : Link) (m : Message)
  | reg (link : Link) (tok : Nat) (handlerId : Nat)
  | expire (tok : Nat)
  | deliver (i : Nat)
  | shut
  | linkUp (l : Link)
  | linkDown (l : Link)
deriving DecidableEq, Repr

/-- One step of the tracking service under an environment event. -/
def step : Ev → TSState → TSState
  | Ev.msg l m, s => on_message l m s
  | Ev.reg l tok h, s => register_tracked l tok h s
  | Ev.expire tok, s => expireTimer tok s
  | Ev.deliver i, s => deliver i s
  | Ev.shut, s => shutdown s
  | Ev.linkUp l, s => on_link_up l s
  | Ev.linkDown l, s => on_link_down l s

/-- Run a sequence of environment events. -/
def run : List Ev → TSState → TSState
  | [], s => s
  | e :: es, s => run es (step e s)

/-- The empty tracking-service state (fresh service, nothing tracked,
no callback fired). -/
def initState : TSState := { handlers := [], queued := [], calls := [] }

/-- Number of recorded invocations of the callback identified by `h`. -/
def countCalls (h : Nat) : List Call → Nat
  | [] => 0
  | c :: cs => (if c.handlerId = h then 1 else 0) + countCalls h cs

/-- Number of correlation-table records holding the callback `h`. -/
def countRecords (h : Nat) : List (Nat × Request) → Nat
  | [] => 0
  | p :: hs => (if p.2.handlerId = h then 1 else 0) + countRecords h hs

/-- `true` when the event is not a registration of the callback `h`. -/
def evOkHandler (h : Nat) : Ev → Bool
  | Ev.reg _ _ g => decide (g ≠ h)
  | _ => true

/-- `true` when no event in the list registers the callback `h`. -/
def noRegHandler (h : Nat) : List Ev → Bool
  | [] => true
  | e :: es => evOkHandler h e && noRegHandler h es

/-- `true` when the event is not a registration of the token `tok`. -/
def evOkToken (tok : Nat) : Ev → Bool
  | Ev.reg _ t _ => decide (t ≠ tok)
  | _ => true

/-- `true` when no event in the list registers the token `tok`. -/
def noRegToken (tok : Nat) : List Ev → Bool
  | [] => true
  | e :: es => evOkToken tok e && noRegToken tok es

/-- Whether a token currently has a pending record. -/
def present (tok : Nat) (s : TSState) : Bool :=
  (lookupHandler tok s.handlers).isSome

/-- Number of steps of the trace at which the token's record is
consumed (present before the step, absent after it). -/
def removals (tok : Nat) : List Ev → TSState → Nat
  | [], _ => 0
  | e :: es, s =>
    (if present tok s && !(present tok (step e s)) then 1 else 0) + removals tok es (step e s)

/-! Basic facts about the association-list operations. -/

theorem lookupHandler_erase_self (tok : Nat) (hs : List (Nat × Request)) :
    lookupHandler tok (eraseHandler tok hs) = none := by
  induction hs with
  | nil => rfl
  | cons p hs ih =>
    by_cases h : p.1 = tok
    · simpa [eraseHandler, h] using ih
    · simpa [eraseHandler, lookupHandler, h] using ih

theorem lookupHandler_erase_ne (t tok : Nat) (hne : t ≠ tok) (hs : List (Nat × Request)) :
    lookupHandler t (eraseHandler tok hs) = lookupHandler t hs := by
  induction hs with
  | nil => rfl
  | cons p hs ih =>
    by_cases h : p.1 = tok
    · have hpt : p.1 ≠ t := by rw [h]; exact fun hx => hne hx.symm
      simp [eraseHandler, h, lookupHandler, hpt, ih, Ne.symm hne]
    · by_cases h2 : p.1 = t <;> simp [eraseHandler, h, lookupHandler, h2, ih, hne]

theorem lookupHandler_append (t : Nat) (xs ys : List (Nat × Request)) :
    lookupHandler t (xs ++ ys) =
      match lookupHandler t xs with
      | some r => some r
      | none => lookupHandler t ys := by
  induction xs with
  | nil => rfl
  | cons p xs ih =>
    by_cases h : p.1 = t <;> simp [lookupHandler, h, ih]

theorem lookupHandler_insert (tok : Nat) (r : Request) (hs : List (Nat × Request)) :
    lookupHandler tok (eraseHandler tok hs ++ [(tok, r)]) = some r := by
  rw [lookupHandler_append, lookupHandler_erase_self]
  simp [lookupHandler]

theorem lookupHandler_map (t : Nat) (g : Nat → Request → Request) (hs : List (Nat × Request)) :
    lookupHandler t (hs.map (fun p => (p.1, g p.1 p.2))) = (lookupHandler t hs).map (g t) := by
  induction hs with
  | nil => rfl
  | cons p hs ih =>
    by_cases h : p.1 = t <;> simp [lookupHandler, h, ih]

theorem countRecords_append (h : Nat) (xs ys : List (Nat × Request)) :
    countRecords h (xs ++ ys) = countRecords h xs + countRecords h ys := by
  induction xs with
  | nil => simp [countRecords]
  | cons p xs ih => simp [countRecords, ih]; omega

theorem countRecords_erase_le (h tok : Nat) (hs : List (Nat × Request)) :
    countRecords h (eraseHandler tok hs) ≤ countRecords h hs := by
  induction hs with
  | nil => exact Nat.le_refl 0
  | cons p hs ih =>
    by_cases hp : p.1 = tok
    · simp [eraseHandler, hp, countRecords]; omega
    · simp [eraseHandler, hp, countRecords]; omega

theorem lookup_some_countRecords (h tok : Nat) (hs : List (Nat × Request)) (r : Request)
    (hl : lookupHandler tok hs = some r) (hh : r.handlerId = h) :
    countRecords h (eraseHandler tok hs) + 1 ≤ countRecords h hs := by
  induction hs with
  | nil => simp [lookupHandler] at hl
  | cons p hs ih =>
    by_cases hp : p.1 = tok
    · simp [lookupHandler, hp] at hl
      subst hl
      simp [eraseHandler, hp, countRecords, hh]
      have := countRecords_erase_le h tok hs
      omega
    · simp [lookupHandler, hp] at hl
      have := ih hl
      simp [eraseHandler, hp, countRecords]
      omega

theorem lookup_some_handlerId_ne (h tok : Nat) (hs : List (Nat × Request)) (r : Request)
    (hl : lookupHandler tok hs = some r) (hz : countRecords h hs = 0) :
    r.handlerId ≠ h := by
  intro hr
  have := lookup_some_countRecords h tok hs r hl hr
  omega

theorem countRecords_map (h : Nat) (g : Nat → Request → Request)
    (hg : ∀ k r, (g k r).handlerId = r.handlerId) (hs : List (Nat × Request)) :
    countRecords h (hs.map (fun p => (p.1, g p.1 p.2))) = countRecords h hs := by
  induction hs with
  | nil => rfl
  | cons p hs ih => simp [countRecords, ih, hg]

theorem countCalls_append (h : Nat) (cs ds : List Call) :
    countCalls h (cs ++ ds) = countCalls h cs + countCalls h ds := by
  induction cs with
  | nil => simp [countCalls]
  | cons c cs ih => simp [countCalls, ih]; omega

/-! The "budget" of a callback: invocations already logged plus records
still holding it. Every operation other than registering that callback
again keeps the budget from growing, which is the heart of the
at-most-once results. -/

/-- Recorded invocations of callback `h` plus table records holding it. -/
def budget (h : Nat) (s : TSState) : Nat :=
  countCalls h s.calls + countRecords h s.handlers

theorem budget_on_message_le (h : Nat) (l : Link) (m : Message) (s : TSState) :
    budget h (on_message l m s) ≤ budget h s := by
  unfold on_message on_message_body
  cases hl : lookupHandler m.token s.handlers with
  | none => exact Nat.le_refl _
  | some r =>
    by_cases hlk : l = r.link
    · by_cases hr : r.handlerId = h
      · have := lookup_some_countRecords h m.token s.handlers r hl hr
        simp [hlk, budget, countCalls_append, countCalls, hr]
        omega
      · have := countRecords_erase_le h m.token s.handlers
        simp [hlk, budget, countCalls_append, countCalls, hr]
        omega
    · have := countRecords_erase_le h m.token s.handlers
      simp [hlk, budget]
      omega

theorem budget_timeoutRun_le (h id : Nat) (l : Link) (ec : Bool) (s : TSState) :
    budget h (timeoutRun id l ec s) ≤ budget h s := by
  unfold timeoutRun
  by_cases hec : ec = true
  · simp [hec]
  · simp only [hec, if_false, Bool.false_eq_true]
    cases hl : lookupHandler id s.handlers with
    | none => simp
    | some r =>
      simp only [budget, countCalls_append, countCalls]
      by_cases hr : r.handlerId = h
      · have := lookup_some_countRecords h id s.handlers r hl hr
        simp [hr]
        omega
      · have := countRecords_erase_le h id s.handlers
        simp [hr]
        omega

theorem budget_register_le (h g tok : Nat) (l : Link) (s : TSState) (hne : g ≠ h) :
    budget h (register_tracked l tok g s) ≤ budget h s := by
  unfold budget register_tracked
  simp only [countRecords_append, countRecords, hne, if_false]
  have := countRecords_erase_le h tok s.handlers
  omega

theorem countRecords_expire (h tok : Nat) (hs : List (Nat × Request)) :
    countRecords h
      (hs.map (fun p => (p.1, if p.1 = tok then { p.2 with phase := TimerPhase.expired } else p.2)))
      = countRecords h hs := by
  have := countRecords_map h
    (fun k r => if k = tok then { r with phase := TimerPhase.expired } else r)
    (by intro k r; by_cases hk : k = tok <;> simp [hk]) hs
  exact this

theorem countRecords_cancel (h : Nat) (hs : List (Nat × Request)) :
    countRecords h (hs.map (fun p => (p.1, cancelTimer p.2))) = countRecords h hs := by
  have := countRecords_map h (fun _ r => cancelTimer r)
    (by intro k r; unfold cancelTimer; by_cases hp : r.phase = TimerPhase.armed <;> simp [hp]) hs
  exact this

theorem budget_expire_le (h tok : Nat) (s : TSState) :
    budget h (expireTimer tok s) ≤ budget h s := by
  unfold expireTimer
  cases hl : lookupHandler tok s.handlers with
  | none => exact Nat.le_refl _
  | some r =>
    by_cases hp : r.phase = TimerPhase.armed
    · simp only [hp, if_true, budget, countRecords_expire]
      exact Nat.le_refl _
    · simp only [hp, if_false]
      exact Nat.le_refl _

theorem budget_shutdown_le (h : Nat) (s : TSState) :
    budget h (shutdown s) ≤ budget h s := by
  unfold budget shutdown
  simp only [countRecords_cancel]
  exact Nat.le_refl _

theorem budget_deliver_le (h i : Nat) (s : TSState) :
    budget h (deliver i s) ≤ budget h s := by
  unfold deliver
  cases hq : s.queued[i]? with
  | none => exact Nat.le_refl _
  | some qt =>
    have := budget_timeoutRun_le h qt.token qt.link qt.aborted
      { s with queued := s.queued.eraseIdx i }
    simpa [budget] using this

theorem budget_step_le (h : Nat) (e : Ev) (s : TSState)
    (he : evOkHandler h e = true) :
    budget h (step e s) ≤ budget h s := by
  cases e with
  | msg l m => exact budget_on_message_le h l m s
  | reg l tok g =>
    have hg : g ≠ h := by simpa [evOkHandler] using he
    exact budget_register_le h g tok l s hg
  | expire tok => exact budget_expire_le h tok s
  | deliver i => exact budget_deliver_le h i s
  | shut => exact budget_shutdown_le h s
  | linkUp l => exact Nat.le_refl _
  | linkDown l => exact Nat.le_refl _

theorem budget_run_le (h : Nat) (es : List Ev) (s : TSState)
    (hes : noRegHandler h es = true) :
    budget h (run es s) ≤ budget h s := by
  induction es generalizing s with
  | nil => exact Nat.le_refl _
  | cons e es ih =>
    rw [noRegHandler, Bool.and_eq_true] at hes
    exact Nat.le_trans (ih (step e s) hes.2) (budget_step_le h e s hes.1)

/-! A callback held by no record is never invoked again: the call log
for it can only grow through a record holding it. -/

theorem zero_on_message (h : Nat) (l : Link) (m : Message) (s : TSState)
    (hz : countRecords h s.handlers = 0) :
    countRecords h (on_message l m s).handlers = 0 ∧
    countCalls h (on_message l m s).calls = countCalls h s.calls := by
  unfold on_message on_message_body
  cases hl : lookupHandler m.token s.handlers with
  | none => exact ⟨hz, rfl⟩
  | some r =>
    have hr : r.handlerId ≠ h := lookup_some_handlerId_ne h m.token s.handlers r hl hz
    have he : countRecords h (eraseHandler m.token s.handlers) = 0 := by
      have := countRecords_erase_le h m.token s.handlers
      omega
    by_cases hlk : l = r.link
    · simp [hlk, he, countCalls_append, countCalls, hr]
    · simp [hlk, he]

theorem zero_timeoutRun (h id : Nat) (l : Link) (ec : Bool) (s : TSState)
    (hz : countRecords h s.handlers = 0) :
    countRecords h (timeoutRun id l ec s).handlers = 0 ∧
    countCalls h (timeoutRun id l ec s).calls = countCalls h s.calls := by
  unfold timeoutRun
  by_cases hec : ec = true
  · simp [hec, hz]
  · simp only [hec, if_false, Bool.false_eq_true]
    cases hl : lookupHandler id s.handlers with
    | none => exact ⟨hz, rfl⟩
    | some r =>
      have hr : r.handlerId ≠ h := lookup_some_handlerId_ne h id s.handlers r hl hz
      have he : countRecords h (eraseHandler id s.handlers) = 0 := by
        have := countRecords_erase_le h id s.handlers
        omega
      simp [he, countCalls_append, countCalls, hr]

theorem zero_step (h : Nat) (e : Ev) (s : TSState)
    (he : evOkHandler h e = true) (hz : countRecords h s.handlers = 0) :
    countRecords h (step e s).handlers = 0 ∧
    countCalls h (step e s).calls = countCalls h s.calls := by
  cases e with
  | msg l m => exact zero_on_message h l m s hz
  | reg l tok g =>
    have hg : g ≠ h := by simpa [evOkHandler] using he
    constructor
    · simp only [step]
      unfold register_tracked
      simp only [countRecords_append, countRecords, hg, if_false]
      have := countRecords_erase_le h tok s.handlers
      omega
    · rfl
  | expire tok =>
    simp only [step]
    constructor
    · unfold expireTimer
      cases hl : lookupHandler tok s.handlers with
      | none => exact hz
      | some r =>
        by_cases hp : r.phase = TimerPhase.armed
        · simp only [hp, if_true]
          rw [show countRecords h (s.handlers.map
              (fun p => (p.1, if p.1 = tok then { p.2 with phase := TimerPhase.expired } else p.2)))
              = countRecords h s.handlers from countRecords_expire h tok s.handlers]
          exact hz
        · simp only [hp, if_false]
          exact hz
    · unfold expireTimer
      cases hl : lookupHandler tok s.handlers with
      | none => rfl
      | some r =>
        by_cases hp : r.phase = TimerPhase.armed <;> simp [hp]
  | deliver i =>
    simp only [step]
    unfold deliver
    cases hq : s.queued[i]? with
    | none => exact ⟨hz, rfl⟩
    | some qt =>
      exact zero_timeoutRun h qt.token qt.link qt.aborted { s with queued := s.queued.eraseIdx i } hz
  | shut =>
    simp only [step]
    constructor
    · unfold shutdown
      rw [show countRecords h (s.handlers.map (fun p => (p.1, cancelTimer p.2)))
          = countRecords h s.handlers from countRecords_cancel h s.handlers]
      exact hz
    · rfl
  | linkUp l => exact ⟨hz, rfl⟩
  | linkDown l => exact ⟨hz, rfl⟩

theorem zero_run (h : Nat) (es : List Ev) (s : TSState)
    (hes : noRegHandler h es = true) (hz : countRecords h s.handlers = 0) :
    countRecords h (run es s).handlers = 0 ∧
    countCalls h (run es s).calls = countCalls h s.calls := by
  induction es generalizing s with
  | nil => exact ⟨hz, rfl⟩
  | cons e es ih =>
    rw [noRegHandler, Bool.and_eq_true] at hes
    obtain ⟨hz2, hc2⟩ := zero_step h e s hes.1 hz
    obtain ⟨hz3, hc3⟩ := ih (step e s) hes.2 hz2
    exact ⟨hz3, by rw [run, hc3, hc2]⟩

/-! Presence of a token's record, its stability, and consumption
counting. -/

theorem present_false_iff (tok : Nat) (s : TSState) :
    present tok s = false ↔ lookupHandler tok s.handlers = none := by
  unfold present
  cases lookupHandler tok s.handlers <;> simp

theorem absent_on_message (tok : Nat) (l : Link) (m : Message) (s : TSState)
    (hab : lookupHandler tok s.handlers = none) :
    lookupHandler tok (on_message l m s).handlers = none := by
  unfold on_message on_message_body
  cases hl : lookupHandler m.token s.handlers with
  | none => exact hab
  | some r =>
    by_cases ht : tok = m.token
    · rw [ht] at hab
      rw [hab] at hl
      cases hl
    · by_cases hlk : l = r.link <;>
        simp [hlk, lookupHandler_erase_ne tok m.token ht, hab]

theorem absent_timeoutRun (tok id : Nat) (l : Link) (ec : Bool) (s : TSState)
    (hab : lookupHandler tok s.handlers = none) :
    lookupHandler tok (timeoutRun id l ec s).handlers = none := by
  unfold timeoutRun
  by_cases hec : ec = true
  · simp [hec, hab]
  · simp only [hec, if_false, Bool.false_eq_true]
    cases hl : lookupHandler id s.handlers with
    | none => exact hab
    | some r =>
      by_cases ht : tok = id
      · rw [ht] at hab
        rw [hab] at hl
        cases hl
      · simp [lookupHandler_erase_ne tok id ht, hab]

theorem absent_register (tok tok2 : Nat) (l : Link) (g : Nat) (s : TSState)
    (hne : tok2 ≠ tok) (hab : lookupHandler tok s.handlers = none) :
    lookupHandler tok (register_tracked l tok2 g s).handlers = none := by
  unfold register_tracked
  rw [lookupHandler_append,
      lookupHandler_erase_ne tok tok2 (fun hx => hne hx.symm), hab]
  simp [lookupHandler, hne]

theorem absent_expire (tok tok2 : Nat) (s : TSState)
    (hab : lookupHandler tok s.handlers = none) :
    lookupHandler tok (expireTimer tok2 s).handlers = none := by
  unfold expireTimer
  cases hl : lookupHandler tok2 s.handlers with
  | none => exact hab
  | some r =>
    by_cases hp : r.phase = TimerPhase.armed
    · simp only [hp, if_true]
      rw [show lookupHandler tok (s.handlers.map
          (fun p => (p.1, if p.1 = tok2 then { p.2 with phase := TimerPhase.expired } else p.2)))
          = (lookupHandler tok s.handlers).map
              (fun rr => if tok = tok2 then { rr with phase := TimerPhase.expired } else rr)
          from lookupHandler_map tok
            (fun k rr => if k = tok2 then { rr with phase := TimerPhase.expired } else rr)
            s.handlers, hab]
      rfl
    · simp only [hp, if_false]
      exact hab

theorem absent_shutdown (tok : Nat) (s : TSState)
    (hab : lookupHandler tok s.handlers = none) :
    lookupHandler tok (shutdown s).handlers = none := by
  unfold shutdown
  rw [show lookupHandler tok (s.handlers.map (fun p => (p.1, cancelTimer p.2)))
      = (lookupHandler tok s.handlers).map (fun r => cancelTimer r)
      from lookupHandler_map tok (fun _ r => cancelTimer r) s.handlers, hab]
  rfl

theorem absent_step (tok : Nat) (e : Ev) (s : TSState)
    (he : evOkToken tok e = true) (hab : present tok s = false) :
    present tok (step e s) = false := by
  rw [present_false_iff] at hab ⊢
  cases e with
  | msg l m => exact absent_on_message tok l m s hab
  | reg l t g =>
    have ht : t ≠ tok := by simpa [evOkToken] using he
    exact absent_register tok t l g s ht hab
  | expire t => exact absent_expire tok t s hab
  | deliver i =>
    simp only [step]
    unfold deliver
    cases hq : s.queued[i]? with
    | none => exact hab
    | some qt =>
      exact absent_timeoutRun tok qt.token qt.link qt.aborted
        { s with queued := s.queued.eraseIdx i } hab
  | shut => exact absent_shutdown tok s hab
  | linkUp l => exact hab
  | linkDown l => exact hab

theorem removals_absent (tok : Nat) (es : List Ev) (s : TSState)
    (hes : noRegToken tok es = true) (hab : present tok s = false) :
    removals tok es s = 0 ∧ present tok (run es s) = false := by
  induction es generalizing s with
  | nil => exact ⟨rfl, hab⟩
  | cons e es ih =>
    rw [noRegToken, Bool.and_eq_true] at hes
    have hab2 := absent_step tok e s hes.1 hab
    obtain ⟨hz, hfin⟩ := ih (step e s) hes.2 hab2
    refine ⟨?_, hfin⟩
    rw [removals, hab]
    simp [hz]

theorem removals_present (tok : Nat) (es : List Ev) (s : TSState)
    (hes : noRegToken tok es = true) (hp : present tok s = true) :
    removals tok es s + (if present tok (run es s) = true then 1 else 0) = 1 := by
  induction es generalizing s with
  | nil => simp [removals, run, hp]
  | cons e es ih =>
    rw [noRegToken, Bool.and_eq_true] at hes
    by_cases h2 : present tok (step e s) = true
    · have := ih (step e s) hes.2 h2
      rw [removals, hp, h2]
      simpa [run] using this
    · have h2f : present tok (step e s) = false := by
        revert h2
        cases present tok (step e s) <;> simp
      obtain ⟨hz, hfin⟩ := removals_absent tok es (step e s) hes.2 h2f
      rw [removals, hp, h2f]
      simp [run, hz, hfin]

/-! ## Claim theorems for the tracking service -/

/-- Concrete state used by witnesses: token 1 pending with callback 7,
registered from link 0, timer armed. -/
def sampleState : TSState :=
  { handlers := [(1, ⟨⟨0⟩, 7, TimerPhase.armed⟩)], queued := [], calls := [] }

/-- C1, counterexample to the claim as stated: token 1 is registered
with callback 7; the subsequent schedule runs `shutdown` and then the
posted (aborted) timer handler, after which no posted handler remains
undelivered — yet the callback fired zero times. Shutdown cancellation
yields zero invocations, so "never zero times" is false. -/
theorem exactly_once_counterexample :
    countCalls 7 (run [Ev.shut, Ev.deliver 0]
        (register_tracked ⟨0⟩ 1 7 initState)).calls = 0 ∧
    (run [Ev.shut, Ev.deliver 0] (register_tracked ⟨0⟩ 1 7 initState)).queued = [] ∧
    lookupHandler 1 (run [Ev.shut, Ev.deliver 0]
        (register_tracked ⟨0⟩ 1 7 initState)).handlers =
      some ⟨⟨0⟩, 7, TimerPhase.cancelled⟩ := by
  decide

/-- C1 (amended): at-most-once completion. For a callback not invoked
before and held by no existing record, after registering it once, any
sequence of on_message / timeout / shutdown / timer events that does
not register the same callback again invokes it at most once. -/
theorem tracked_callback_fires_at_most_once (s : TSState) (l : Link) (tok h : Nat)
    (es : List Ev) (hcalls : countCalls h s.calls = 0)
    (hrecs : countRecords h s.handlers = 0) (hes : noRegHandler h es = true) :
    countCalls h (run es (register_tracked l tok h s)).calls ≤ 1 := by
  have h1 : budget h (register_tracked l tok h s) ≤ 1 := by
    unfold budget register_tracked
    simp only [countRecords_append]
    simp [countRecords, hcalls]
    have := countRecords_erase_le h tok s.handlers
    omega
  have h2 := budget_run_le h es (register_tracked l tok h s) hes
  unfold budget at h2
  unfold budget at h1
  omega

/-- C1 witness: a concrete registration followed by expiry and handler
delivery fires the callback at most once. -/
theorem tracked_callback_fires_at_most_once_witness :
    countCalls 7 (run [Ev.expire 1, Ev.deliver 0]
        (register_tracked ⟨0⟩ 1 7 initState)).calls ≤ 1 :=
  tracked_callback_fires_at_most_once initState ⟨0⟩ 1 7 [Ev.expire 1, Ev.deliver 0]
    (by decide) (by decide) (by decide)

/-- C2: when `on_message` finds a pending record for the message's
token, the record is removed from the table in every case; if the
arrival link differs from the originating link the callback is not
invoked, and if it matches, `callback(link, message)` is appended to
the call log exactly once. -/
theorem on_message_cross_link_suppression (s : TSState) (l : Link) (m : Message)
    (r : Request) (hfound : lookupHandler m.token s.handlers = some r) :
    lookupHandler m.token (on_message l m s).handlers = none ∧
    (l ≠ r.link → (on_message l m s).calls = s.calls) ∧
    (l = r.link → (on_message l m s).calls = s.calls ++ [⟨r.handlerId, l, some m⟩]) := by
  unfold on_message on_message_body
  rw [hfound]
  by_cases hlk : l = r.link
  · simp [hlk, lookupHandler_erase_self]
  · simp [hlk, lookupHandler_erase_self]

/-- C2 witness: a response for token 1 arriving on link 5 instead of
the originating link 0 removes the record without firing the
callback. -/
theorem on_message_cross_link_suppression_witness :
    lookupHandler 1 (on_message ⟨5⟩ ⟨1⟩ sampleState).handlers = none ∧
    (on_message ⟨5⟩ ⟨1⟩ sampleState).calls = sampleState.calls := by
  have h := on_message_cross_link_suppression sampleState ⟨5⟩ ⟨1⟩
    ⟨⟨0⟩, 7, TimerPhase.armed⟩ (by decide)
  exact ⟨h.1, h.2.1 (by decide)⟩

/-- C3 (code bug): `TrackingService::timeout`, unlike `on_message`, has
no try/catch, so `handlers_.at(id)` throws `std::out_of_range` out of
the function when the record was already consumed. The state below is
reachable: the timer of token 1 expires (its completion handler is
posted with success) and the matching response then consumes the
record; running the posted handler throws. -/
theorem timeout_throws_on_consumed_token :
    (run [Ev.expire 1, Ev.msg ⟨0⟩ ⟨1⟩] (register_tracked ⟨0⟩ 1 7 initState)).queued =
      [⟨1, ⟨0⟩, false⟩] ∧
    timeoutExc 1 ⟨0⟩ false
        (run [Ev.expire 1, Ev.msg ⟨0⟩ ⟨1⟩] (register_tracked ⟨0⟩ 1 7 initState)) =
      Except.error () :=
  ⟨by decide, rfl⟩

/-- C4: `timeout` invoked with the cancelled error code is a no-op; on
a clear error code with a pending record it removes the record and
appends exactly one callback invocation with `none`; and when no record
remains (the response was already delivered) it appends no callback
invocation. -/
theorem timeout_firing_semantics (s : TSState) (tok : Nat) (l : Link) :
    timeoutRun tok l true s = s ∧
    (∀ r, lookupHandler tok s.handlers = some r →
        lookupHandler tok (timeoutRun tok l false s).handlers = none ∧
        (timeoutRun tok l false s).calls = s.calls ++ [⟨r.handlerId, l, none⟩]) ∧
    (lookupHandler tok s.handlers = none →
        (timeoutRun tok l false s).calls = s.calls) := by
  refine ⟨rfl, ?_, ?_⟩
  · intro r hr
    constructor
    · simp [timeoutRun, hr, lookupHandler_erase_self]
    · simp [timeoutRun, hr]
  · intro hr
    simp [timeoutRun, hr]

/-- C4 witness: at the sample state, a cancelled timer leaves the state
untouched, and an expiring timer fires the callback with the timeout
marker. -/
theorem timeout_firing_semantics_witness :
    timeoutRun 1 ⟨0⟩ true sampleState = sampleState ∧
    (timeoutRun 1 ⟨0⟩ false sampleState).calls =
      sampleState.calls ++ [⟨7, ⟨0⟩, none⟩] := by
  have h := timeout_firing_semantics sampleState 1 ⟨0⟩
  exact ⟨h.1, (h.2.1 ⟨⟨0⟩, 7, TimerPhase.armed⟩ (by decide)).2⟩

/-- C5: `on_message` on a token with no pending record returns normally
with the state unchanged (the `std::out_of_range` raised inside the body
is caught by the function-try-block and only logged). -/
theorem on_message_unknown_token_ignored (s : TSState) (l : Link) (m : Message)
    (habs : lookupHandler m.token s.handlers = none) :
    on_message l m s = s ∧ on_message_body l m s = Except.error () := by
  constructor
  · simp [on_message, on_message_body, habs]
  · simp [on_message_body, habs]

/-- C5 witness: an unknown token 9 leaves the sample state untouched. -/
theorem on_message_unknown_token_ignored_witness :
    on_message ⟨0⟩ ⟨9⟩ sampleState = sampleState :=
  (on_message_unknown_token_ignored sampleState ⟨0⟩ ⟨9⟩ (by decide)).1

/-- C6: after `register_tracked(link, token, callback, timeout)` the
correlation table holds a pending record for the token with that
originating link and callback and an armed timer; and over any
subsequent event sequence that does not register the token again,
exactly one of the following holds: the record is consumed exactly once
(removed by a response or by the timeout firing), or it is still
pending at the end (the case shutdown cancellation leaves behind). -/
theorem register_tracked_postcondition_consumed_once (s : TSState) (l : Link)
    (tok h : Nat) (es : List Ev) (hes : noRegToken tok es = true) :
    lookupHandler tok (register_tracked l tok h s).handlers =
      some ⟨l, h, TimerPhase.armed⟩ ∧
    removals tok es (register_tracked l tok h s) +
      (if present tok (run es (register_tracked l tok h s)) = true then 1 else 0) = 1 := by
  have hpost : lookupHandler tok (register_tracked l tok h s).handlers =
      some ⟨l, h, TimerPhase.armed⟩ := by
    unfold register_tracked
    exact lookupHandler_insert tok _ s.handlers
  refine ⟨hpost, ?_⟩
  apply removals_present tok es _ hes
  unfold present
  rw [hpost]
  rfl

/-- C6 witness: a concrete registration consumed by its timeout firing
is consumed exactly once. -/
theorem register_tracked_postcondition_consumed_once_witness :
    lookupHandler 1 (register_tracked ⟨0⟩ 1 7 initState).handlers =
      some ⟨⟨0⟩, 7, TimerPhase.armed⟩ ∧
    removals 1 [Ev.expire 1, Ev.deliver 0] (register_tracked ⟨0⟩ 1 7 initState) +
      (if present 1 (run [Ev.expire 1, Ev.deliver 0]
          (register_tracked ⟨0⟩ 1 7 initState)) = true then 1 else 0) = 1 :=
  register_tracked_postcondition_consumed_once initState ⟨0⟩ 1 7
    [Ev.expire 1, Ev.deliver 0] (by decide)

/-- C7, counterexample to the claim as stated: token 1 is pending when
`shutdown` runs, yet its timeout callback still fires afterwards — the
timer had already expired, so its completion handler was posted with
success before the cancellation, which only affects timers that have
not yet fired. -/
theorem shutdown_expired_timer_counterexample :
    present 1 (run [Ev.expire 1] (register_tracked ⟨0⟩ 1 7 initState)) = true ∧
    (run [Ev.expire 1, Ev.shut, Ev.deliver 0]
        (register_tracked ⟨0⟩ 1 7 initState)).calls = [⟨7, ⟨0⟩, none⟩] := by
  decide

/-- C7 (amended): `shutdown` invokes no callback and cancels the timer
of every pending record that is still armed; every timer-handler
invocation it newly posts carries the aborted error code, and running
`timeout` with the aborted code never fires a callback. A timer whose
completion handler was already posted with success (already expired) is
not affected and may still fire afterwards. -/
theorem shutdown_cancels_armed_timers (s : TSState) :
    (shutdown s).calls = s.calls ∧
    (∀ tok r, lookupHandler tok s.handlers = some r →
        lookupHandler tok (shutdown s).handlers = some (cancelTimer r)) ∧
    (∀ q, q ∈ (shutdown s).queued → q ∈ s.queued ∨ q.aborted = true) ∧
    (∀ tok l, timeoutRun tok l true s = s) := by
  refine ⟨rfl, ?_, ?_, fun tok l => rfl⟩
  · intro tok r hr
    unfold shutdown
    rw [show lookupHandler tok (s.handlers.map (fun p => (p.1, cancelTimer p.2)))
        = (lookupHandler tok s.handlers).map (fun r => cancelTimer r)
        from lookupHandler_map tok (fun _ r => cancelTimer r) s.handlers, hr]
    rfl
  · intro q hq
    simp only [shutdown, List.mem_append, List.mem_map, List.mem_filter] at hq
    rcases hq with hq | ⟨p, hp, rfl⟩
    · exact Or.inl hq
    · exact Or.inr rfl

/-- C7 witness: at the sample state, shutdown fires nothing and the
armed timer of token 1 becomes cancelled. -/
theorem shutdown_cancels_armed_timers_witness :
    (shutdown sampleState).calls = sampleState.calls ∧
    lookupHandler 1 (shutdown sampleState).handlers =
      some (cancelTimer ⟨⟨0⟩, 7, TimerPhase.armed⟩) := by
  have h := shutdown_cancels_armed_timers sampleState
  exact ⟨h.1, h.2.1 1 ⟨⟨0⟩, 7, TimerPhase.armed⟩ (by decide)⟩

/-- C8: `on_link_up` and `on_link_down` are identities on the tracking
state — no record, timer, or callback log is touched by link lifecycle
events, for every link and every state. -/
theorem on_link_events_frame_effect (l : Link) (s : TSState) :
    on_link_up l s = s ∧ on_link_down l s = s :=
  ⟨rfl, rfl⟩

/-- C9: registering a token that already has a pending record replaces
the record (the lookup now yields the new registration), and the
replaced record's callback — held by no other record and never
registered again — is never invoked by any subsequent event sequence. -/
theorem duplicate_registration_replaces (s : TSState) (l2 : Link)
    (tok hOld hNew : Nat) (es : List Ev)
    (_hdup : (lookupHandler tok s.handlers).isSome = true)
    (honly : countRecords hOld (eraseHandler tok s.handlers) = 0)
    (hne : hNew ≠ hOld)
    (hes : noRegHandler hOld es = true) :
    lookupHandler tok (register_tracked l2 tok hNew s).handlers =
      some ⟨l2, hNew, TimerPhase.armed⟩ ∧
    countCalls hOld (run es (register_tracked l2 tok hNew s)).calls =
      countCalls hOld s.calls := by
  constructor
  · unfold register_tracked
    exact lookupHandler_insert tok _ s.handlers
  · have hz : countRecords hOld (register_tracked l2 tok hNew s).handlers = 0 := by
      rw [show (register_tracked l2 tok hNew s).handlers
          = eraseHandler tok s.handlers ++ [(tok, ⟨l2, hNew, TimerPhase.armed⟩)] from rfl,
        countRecords_append]
      simp [countRecords, hne]
      omega
    have hr := zero_run hOld es (register_tracked l2 tok hNew s) hes hz
    rw [hr.2]
    rfl

/-- C9 witness: re-registering token 1 with callback 9 replaces the
record holding callback 7; a response, a timer expiry, and the handler
delivery afterwards never invoke callback 7. -/
theorem duplicate_registration_replaces_witness :
    lookupHandler 1 (register_tracked ⟨0⟩ 1 9 sampleState).handlers =
      some ⟨⟨0⟩, 9, TimerPhase.armed⟩ ∧
    countCalls 7 (run [Ev.msg ⟨0⟩ ⟨1⟩, Ev.expire 1, Ev.deliver 0]
        (register_tracked ⟨0⟩ 1 9 sampleState)).calls =
      countCalls 7 sampleState.calls :=
  duplicate_registration_replaces sampleState ⟨0⟩ 1 7 9
    [Ev.msg ⟨0⟩ ⟨1⟩, Ev.expire 1, Ev.deliver 0]
    (by decide) (by decide) (by decide) (by decide)

end TrackingService

end Spark

/-! ## RealmService (`src/login/RealmService.cpp`) -/

/-- The `RealmStatus` flatbuffers payload as `handle_realm_status` reads
it: `name()` and `ip()` are string accessors returning a pointer that is
null when the field is absent (`Option`); `id()`, `population()`,
`type()`, `flags()` and `timezone()` are scalar accessors whose absent
value is the scalar default `0`. -/
structure RealmStatusMsg where
  name : Option String
  id : Nat
  ip : Option String
  population : Nat
  type : Nat
  flags : Nat
  timezone : Nat
deriving DecidableEq, Repr

/-- A `Realm` entry as `handle_realm_status` fills it in. -/
structure Realm where
  id : Nat
  ip : String
  name : String
  population : Nat
  type : Nat
  flags : Nat
  timezone : Nat
deriving DecidableEq, Repr

/-- State owned by `RealmService`: the shared realm list `realms_` and
the `known_realms_` map from link uuid to realm id. -/
structure RSState where
  realms : List Realm
  known_realms : List (Nat × Nat)
deriving DecidableEq, Repr

namespace RealmService

/-- Modelled from the spec: `RealmList::add_realm` (its source is not
under `src/`) stores the given realm in the realm list. Only whether a
realm was stored matters to the claims, so it is modelled as appending
the entry. -/
def add_realm (r : Realm) (rs : List Realm) : List Realm := rs ++ [r]

/-- `known_realms_[link.uuid] = msg->id()`: `std::unordered_map`
subscript-assignment, updating in place or appending. -/
def insertKnown (k v : Nat) : List (Nat × Nat) → List (Nat × Nat)
  | [] => [(k, v)]
  | p :: ps => if p.1 = k then (k, v) :: ps else p :: insertKnown k v ps

/-- Dereferencing a flatbuffers string pointer (`->str()`): on a null
pointer this is undefined behaviour — the crash is modelled as
`Except.error`. -/
def strDeref : Option String → Except Unit String
  | some s => Except.ok s
  | none => Except.error ()

/-- `RealmService::handle_realm_status(link, root)`. The validation
`if(!msg->name() || !msg->id() || !msg->ip())` only writes a debug log
("Failed" — marked `// todo`) and does not return, so execution falls
through unconditionally: the realm fields are filled in (dereferencing
`ip()` and then `name()`), `realms_.add_realm(realm)` runs, and the
link is recorded in `known_realms_`. -/
def handle_realm_status (link : Spark.Link) (msg : RealmStatusMsg) (st : RSState) :
    Except Unit RSState := do
  let ip ← strDeref msg.ip
  let name ← strDeref msg.name
  Except.ok
    { realms := add_realm ⟨msg.id, ip, name, msg.population, msg.type, msg.flags, msg.timezone⟩
        st.realms
      known_realms := insertKnown link.uuid msg.id st.known_realms }

/-- C10 (code bug): the claim is violated because the validation branch
lacks a `return`. With an absent `name` the handler still dereferences
the null pointer (undefined behaviour, modelled as `Except.error`); and
with name and ip present but `id` absent (scalar default 0) the handler
both adds the realm and records the link, which the claim forbids. -/
theorem handle_realm_status_missing_fields :
    handle_realm_status ⟨3⟩ ⟨none, 5, some "1.2.3.4", 0, 0, 0, 0⟩ ⟨[], []⟩ =
      Except.error () ∧
    handle_realm_status ⟨3⟩ ⟨some "Test", 0, some "1.2.3.4", 0, 0, 0, 0⟩ ⟨[], []⟩ =
      Except.ok ⟨[⟨0, "1.2.3.4", "Test", 0, 0, 0, 0⟩], [(3, 0)]⟩ :=
  ⟨rfl, rfl⟩

end RealmService

end Ember
